import Mathlib

set_option maxRecDepth 20000

/-! Shallow embedding of proto2django (src/main.go): a CLI that extracts
protobuf-style message declarations from text with two regular expressions
and renders a fixed set of Django application files from templates.
The two Go regular expressions are embedded as deterministic leftmost-first
matchers; file-system effects are abstracted by an oracle (World) recording
the outcome of each external operation. -/

/-- RE2 word class: ASCII letters, digits, underscore. -/
def isWordChar (c : Char) : Bool := c.isAlphanum || c = '_'

/-- RE2 whitespace class: tab, newline, form feed, carriage return, space. -/
def isSpaceChar (c : Char) : Bool :=
  c = ' ' || c = '\t' || c = '\n' || c = '\x0c' || c = '\r'

/-- RE2 digit class: ASCII digits. -/
def isDigitChar (c : Char) : Bool := c.isDigit

/-- Consume an exact literal from the front of a character list. -/
def dropLit : List Char → List Char → Option (List Char)
  | [], l => some l
  | c :: lit, d :: l => if c = d then dropLit lit l else none
  | _ :: _, [] => none

def messageLit : List Char := ['m', 'e', 's', 's', 'a', 'g', 'e']

def repeatedLit : List Char := ['r', 'e', 'p', 'e', 'a', 't', 'e', 'd']

/-- One attempt of the message regular expression of ParseProto at the head of
the input: the literal word message, one or more whitespace characters, a word
name, optional whitespace, then a brace-delimited body made of characters other
than a closing brace.  Returns the two captures (name, body) and the rest of
the input after the match. -/
def matchMessageAt (l : List Char) : Option (String × String × List Char) :=
  match dropLit messageLit l with
  | none => none
  | some t =>
    if (t.takeWhile isSpaceChar).isEmpty then none
    else
      let t1 := t.dropWhile isSpaceChar
      let nm := t1.takeWhile isWordChar
      if nm.isEmpty then none
      else
        let t2 := t1.dropWhile isWordChar
        match t2.dropWhile isSpaceChar with
        | '{' :: t4 =>
          let body := t4.takeWhile (fun c => !(c = '}'))
          match t4.dropWhile (fun c => !(c = '}')) with
          | '}' :: t5 => some (⟨nm⟩, ⟨body⟩, t5)
          | _ => none
        | _ => none

/-- ProtoField from src/main.go: one parsed field of a message.  The source
field Type is spelled Typ since Type is a Lean keyword. -/
structure ProtoField where
  Name : String
  Typ : String
  Repeated : Bool
  deriving DecidableEq

/-- ProtoMessage from src/main.go: a parsed message with its fields. -/
structure ProtoMessage where
  Name : String
  Fields : List ProtoField
  deriving DecidableEq

/-- One attempt of the unprefixed part of the field regular expression: a word
type, whitespace, a word name, optional whitespace, an equals sign, optional
whitespace, and one or more digits.  Returns (type, name, rest). -/
def matchFieldCore (l : List Char) : Option (String × String × List Char) :=
  let ty := l.takeWhile isWordChar
  if ty.isEmpty then none
  else
    let t1 := l.dropWhile isWordChar
    if (t1.takeWhile isSpaceChar).isEmpty then none
    else
      let t2 := t1.dropWhile isSpaceChar
      let nm := t2.takeWhile isWordChar
      if nm.isEmpty then none
      else
        let t3 := t2.dropWhile isWordChar
        match t3.dropWhile isSpaceChar with
        | '=' :: t5 =>
          let t6 := t5.dropWhile isSpaceChar
          if (t6.takeWhile isDigitChar).isEmpty then none
          else some (⟨ty⟩, ⟨nm⟩, t6.dropWhile isDigitChar)
        | _ => none

/-- One attempt of the full field regular expression at the head of the input:
the optional greedy repeated-plus-whitespace group is tried first, as a
leftmost-first engine would, and on failure the bare alternative is taken. -/
def matchFieldAt (l : List Char) : Option (ProtoField × List Char) :=
  match dropLit repeatedLit l with
  | some t =>
    if (t.takeWhile isSpaceChar).isEmpty then
      (matchFieldCore l).map (fun r => ({ Name := r.2.1, Typ := r.1, Repeated := false }, r.2.2))
    else
      match matchFieldCore (t.dropWhile isSpaceChar) with
      | some r => some ({ Name := r.2.1, Typ := r.1, Repeated := true }, r.2.2)
      | none =>
        (matchFieldCore l).map (fun r => ({ Name := r.2.1, Typ := r.1, Repeated := false }, r.2.2))
  | none =>
    (matchFieldCore l).map (fun r => ({ Name := r.2.1, Typ := r.1, Repeated := false }, r.2.2))

/-- FindAllStringSubmatch for the message pattern: scan left to right, emit
each non-overlapping match, resume after its end.  Fuel-based so that the
definition is structural; any fuel at least the length of the text gives the
same value. -/
def findAllMessagesAux : Nat → List Char → List (String × String)
  | 0, _ => []
  | _ + 1, [] => []
  | fuel + 1, c :: rest =>
    match matchMessageAt (c :: rest) with
    | some (n, b, rem) => (n, b) :: findAllMessagesAux fuel rem
    | none => findAllMessagesAux fuel rest

def findAllMessages (l : List Char) : List (String × String) :=
  findAllMessagesAux l.length l

/-- FindAllStringSubmatch for the field pattern, as for messages. -/
def findAllFieldsAux : Nat → List Char → List ProtoField
  | 0, _ => []
  | _ + 1, [] => []
  | fuel + 1, c :: rest =>
    match matchFieldAt (c :: rest) with
    | some (f, rem) => f :: findAllFieldsAux fuel rem
    | none => findAllFieldsAux fuel rest

def findAllFields (l : List Char) : List ProtoField :=
  findAllFieldsAux l.length l

/-- The pure part of ParseProto: messages in match order, each with its fields
extracted from the matched body in match order. -/
def parseText (text : String) : List ProtoMessage :=
  (findAllMessages text.data).map (fun p => { Name := p.1, Fields := findAllFields p.2.data })

/-- Go ParseProto with the file read abstracted: the argument is the result of
os.ReadFile on the proto path.  A read error is wrapped; parsing itself always
succeeds. -/
def ParseProto (readResult : Except String String) : Except String (List ProtoMessage) :=
  match readResult with
  | .error e => .error ("failed to read proto file: " ++ e)
  | .ok text => .ok (parseText text)

/-- Go PythonType: maps a protobuf type name to a Django model field
declaration. -/
def PythonType (protoType : String) : String :=
  if protoType = "int32" then "models.IntegerField()"
  else if protoType = "int64" then "models.IntegerField()"
  else if protoType = "string" then "models.CharField(max_length=255)"
  else if protoType = "bool" then "models.BooleanField()"
  else if protoType = "float" then "models.FloatField()"
  else if protoType = "double" then "models.FloatField()"
  else "models.ForeignKey(" ++ protoType ++ ", on_delete=models.CASCADE)"

/-- RenderedField from src/main.go (field Type spelled Typ). -/
structure RenderedField where
  Name : String
  Typ : String
  Repeated : Bool
  DjangoType : String
  deriving DecidableEq

/-- RenderedMessage from src/main.go. -/
structure RenderedMessage where
  Name : String
  Fields : List RenderedField
  deriving DecidableEq

/-- TemplateData from src/main.go. -/
structure TemplateData where
  AppName : String
  AppTitle : String
  Messages : List RenderedMessage
  deriving DecidableEq

/-- The per-field mapping step of GenerateApp. -/
def toRenderedField (f : ProtoField) : RenderedField :=
  { Name := f.Name, Typ := f.Typ, Repeated := f.Repeated, DjangoType := PythonType f.Typ }

/-- The per-message mapping step of GenerateApp. -/
def toRenderedMessage (m : ProtoMessage) : RenderedMessage :=
  { Name := m.Name, Fields := m.Fields.map toRenderedField }

def sJoin (l : List String) : String := l.foldr (fun a b => a ++ b) ""

/-- ASCII model of strings.ToLower, the single template helper (funcMap). -/
def goToLower (s : String) : String := ⟨s.data.map Char.toLower⟩

def isTitleWordChar (c : Char) : Bool := c.isAlphanum || c = '_' || c = Char.ofNat 39

def titleCaseAux : Bool → List Char → List Char
  | _, [] => []
  | inWord, c :: rest =>
    if isTitleWordChar c then
      (if inWord then c.toLower else c.toUpper) :: titleCaseAux true rest
    else
      c :: titleCaseAux false rest

/-- ASCII model of the x/text English title caser bound to the Go caser
variable: the first character of each word is uppercased and later word
characters are lowercased, where underscore and apostrophe join a word. -/
def titleCaser (s : String) : String := ⟨titleCaseAux false s.data⟩

/-- Go path/filepath Base on a unix path. -/
def filepathBase (path : String) : String :=
  if path.data = [] then "."
  else
    let r := path.data.reverse.dropWhile (fun c => c = '/')
    if r = [] then "/"
    else ⟨(r.takeWhile (fun c => !(c = '/'))).reverse⟩

/-- The rendering context built inside GenerateApp from the output directory
and the parsed messages. -/
def buildData (outputDir : String) (rawMessages : List ProtoMessage) : TemplateData :=
  { AppName := filepathBase outputDir,
    AppTitle := titleCaser (filepathBase outputDir),
    Messages := rawMessages.map toRenderedMessage }

/-- One field line of modelsTemplate, with left trim markers applied. -/
def modelFieldLine (f : RenderedField) : String :=
  "\n    " ++ f.Name ++ " = " ++ f.DjangoType

/-- One message block of modelsTemplate, with left trim markers applied. -/
def modelBlock (m : RenderedMessage) : String :=
  "\nclass " ++ m.Name ++ "(models.Model):" ++
    (if m.Fields.isEmpty then "\n    pass" else sJoin (m.Fields.map modelFieldLine)) ++ "\n"

/-- Rendering of modelsTemplate. -/
def renderModels (d : TemplateData) : String :=
  "from django.db import models" ++ sJoin (d.Messages.map modelBlock) ++ "\n"

def serializerImport (m : RenderedMessage) : String :=
  "\nfrom .models import " ++ m.Name ++ "\n"

def serializerClass (m : RenderedMessage) : String :=
  "\nclass " ++ m.Name ++ "Serializer(serializers.ModelSerializer):\n    class Meta:\n        model = " ++
    m.Name ++ "\n        fields = '__all__'\n"

/-- Rendering of serializersTemplate. -/
def renderSerializers (d : TemplateData) : String :=
  "from rest_framework import serializers\n" ++ sJoin (d.Messages.map serializerImport) ++
    "\n\n" ++ sJoin (d.Messages.map serializerClass) ++ "\n"

def viewsetImport (m : RenderedMessage) : String :=
  "\nfrom .models import " ++ m.Name ++ "\nfrom .serializers import " ++ m.Name ++ "Serializer\n"

def viewsetClass (m : RenderedMessage) : String :=
  "\nclass " ++ m.Name ++ "ViewSet(viewsets.ModelViewSet):\n    queryset = " ++ m.Name ++
    ".objects.all()\n    serializer_class = " ++ m.Name ++ "Serializer\n"

/-- Rendering of viewsetsTemplate. -/
def renderViewsets (d : TemplateData) : String :=
  "from rest_framework import viewsets\n" ++ sJoin (d.Messages.map viewsetImport) ++
    "\n\n" ++ sJoin (d.Messages.map viewsetClass) ++ "\n"

def urlImport (m : RenderedMessage) : String :=
  "\nfrom .viewsets import " ++ m.Name ++ "ViewSet\n"

def urlRegister (m : RenderedMessage) : String :=
  "\nrouter.register(r'" ++ goToLower m.Name ++ "', " ++ m.Name ++ "ViewSet)\n"

/-- Rendering of urlsTemplate. -/
def renderUrls (d : TemplateData) : String :=
  "from django.urls import path, include\nfrom rest_framework.routers import DefaultRouter\n" ++
    sJoin (d.Messages.map urlImport) ++ "\n\nrouter = DefaultRouter()\n" ++
    sJoin (d.Messages.map urlRegister) ++
    "\n\nurlpatterns = [\n    path('', include(router.urls)),\n]\n"

def adminImport (m : RenderedMessage) : String :=
  "\nfrom .models import " ++ m.Name ++ "\n"

def adminRegister (m : RenderedMessage) : String :=
  "\nadmin.site.register(" ++ m.Name ++ ")\n"

/-- Rendering of adminTemplate. -/
def renderAdmin (d : TemplateData) : String :=
  "from django.contrib import admin\n" ++ sJoin (d.Messages.map adminImport) ++
    "\n\n" ++ sJoin (d.Messages.map adminRegister) ++ "\n"

/-- Rendering of appsTemplate. -/
def renderApps (d : TemplateData) : String :=
  "from django.apps import AppConfig\n\nclass " ++ d.AppTitle ++
    "Config(AppConfig):\n    default_auto_field = 'django.db.models.BigAutoField'\n    name = '" ++
    d.AppName ++ "'\n"

/-- The six templated output files of GenerateApp, keyed by file name. -/
def renderTemplate (name : String) (d : TemplateData) : String :=
  if name = "models.py" then renderModels d
  else if name = "serializers.py" then renderSerializers d
  else if name = "viewsets.py" then renderViewsets d
  else if name = "urls.py" then renderUrls d
  else if name = "admin.py" then renderAdmin d
  else if name = "apps.py" then renderApps d
  else ""

/-- The key set of the files map in GenerateApp; since Go map iteration order
is unspecified, runs are parameterized by a permutation of this list. -/
def canonicalOrder : List String :=
  ["models.py", "serializers.py", "viewsets.py", "urls.py", "admin.py", "apps.py"]

/-- The three static placeholder files written by GenerateApp via writeFile. -/
def staticsList : List (String × String) :=
  [("migrations/__init__.py", ""), ("__init__.py", ""), ("tests.py", "# placeholder\n")]

/-- Oracle for the outcome of each external operation during one run: the
result of the input read, and for each path the error (if any) of directory
creation, of os.WriteFile, of template parsing, of os.Create, and of template
execution. -/
structure World where
  readResult : Except String String
  mkdirErr : Option String
  writeErr : String → Option String
  parseErr : String → Option String
  createErr : String → Option String
  execErr : String → Option String

/-- A run in which every external operation succeeds and the read yields the
given text. -/
def okWorld (input : String) : World :=
  { readResult := .ok input, mkdirErr := none, writeErr := fun _ => none,
    parseErr := fun _ => none, createErr := fun _ => none, execErr := fun _ => none }

/-- A run identical to okWorld on the empty input except that os.WriteFile
fails on the static test stub. -/
def badWorld : World :=
  { readResult := .ok "", mkdirErr := none,
    writeErr := fun n2 => if n2 = "tests.py" then some "disk full" else none,
    parseErr := fun _ => none, createErr := fun _ => none, execErr := fun _ => none }

/-- Go writeFile: creates or overwrites a file, discarding any error.  Returns
the file actually written, or none when the underlying write failed. -/
def writeFile (w : World) (path content : String) : Option (String × String) :=
  match w.writeErr path with
  | some _ => none
  | none => some (path, content)

/-- Go renderToFile for one named template: template parse errors and file
creation errors are wrapped here; execution errors are returned as they are. -/
def renderToFile (w : World) (name : String) (d : TemplateData) : Except String String :=
  match w.parseErr name with
  | some e => .error ("failed to parse template: " ++ e)
  | none =>
    match w.createErr name with
    | some e => .error ("failed to create file: " ++ e)
    | none =>
      match w.execErr name with
      | some e => .error e
      | none => .ok (renderTemplate name d)

/-- The rendering loop of GenerateApp over the files map, in the given
iteration order; the first failing file aborts with a wrapped error. -/
def renderAll (w : World) (d : TemplateData) : List String → Except String (List (String × String))
  | [] => .ok []
  | name :: rest =>
    match renderToFile w name d with
    | .error e => .error ("failed to render " ++ name ++ ": " ++ e)
    | .ok content =>
      match renderAll w d rest with
      | .error e => .error e
      | .ok tl => .ok ((name, content) :: tl)

/-- Go GenerateApp: parse, map fields, build the context, create the
migrations directory, write the three static files (errors discarded), then
render the six templates in the given map iteration order.  On success,
returns the written files (paths relative to the output directory). -/
def GenerateApp (w : World) (outputDir : String) (order : List String) :
    Except String (List (String × String)) :=
  match ParseProto w.readResult with
  | .error e => .error e
  | .ok rawMessages =>
    let d := buildData outputDir rawMessages
    match w.mkdirErr with
    | some e => .error ("failed to create migrations directory: " ++ e)
    | none =>
      match renderAll w d order with
      | .error e => .error e
      | .ok files => .ok ((staticsList.filterMap (fun p => writeFile w p.1 p.2)) ++ files)

/-- The substring relation used to state presence of a rendered fragment. -/
def occursIn (p s : String) : Prop := ∃ a b : List Char, s.data = a ++ p.data ++ b

/-- Lookup of a written file by name in a run result. -/
def lookupIn : List (String × String) → String → Option String
  | [], _ => none
  | (k, v) :: rest, name => if k = name then some v else lookupIn rest name

/-- Content of a named output file of a run, or none if the run failed or the
file was not written. -/
def lookupOut : Except String (List (String × String)) → String → Option String
  | .error _, _ => none
  | .ok files, name => lookupIn files name

/-- The matched text of one message block: the literal word message, mandatory
whitespace, the captured name, optional whitespace, and the brace-delimited
captured body. -/
def BlockMatchText (mid : List Char) (p : String × String) : Prop :=
  ∃ w1 nm w2 body,
    mid = messageLit ++ w1 ++ nm ++ w2 ++ '{' :: (body ++ ['}']) ∧
    w1 ≠ [] ∧ (∀ c ∈ w1, isSpaceChar c = true) ∧
    nm ≠ [] ∧ (∀ c ∈ nm, isWordChar c = true) ∧
    (∀ c ∈ w2, isSpaceChar c = true) ∧ (∀ c ∈ body, ¬c = '}') ∧
    p.1 = ⟨nm⟩ ∧ p.2 = ⟨body⟩

/-- The matched text of one field declaration: an optional repeated prefix,
the captured type, whitespace, the captured name, an equals sign and a tag
number. -/
def FieldMatchText (mid : List Char) (f : ProtoField) : Prop :=
  ∃ pre ty sp1 nm sp2 sp3 ds,
    mid = pre ++ ty ++ sp1 ++ nm ++ sp2 ++ '=' :: (sp3 ++ ds) ∧
    ((f.Repeated = true ∧ ∃ ws, pre = repeatedLit ++ ws ∧ ws ≠ [] ∧
        (∀ c ∈ ws, isSpaceChar c = true)) ∨
      (f.Repeated = false ∧ pre = [])) ∧
    ty ≠ [] ∧ (∀ c ∈ ty, isWordChar c = true) ∧
    sp1 ≠ [] ∧ (∀ c ∈ sp1, isSpaceChar c = true) ∧
    nm ≠ [] ∧ (∀ c ∈ nm, isWordChar c = true) ∧
    (∀ c ∈ sp2, isSpaceChar c = true) ∧ (∀ c ∈ sp3, isSpaceChar c = true) ∧
    ds ≠ [] ∧ (∀ c ∈ ds, isDigitChar c = true) ∧
    f.Typ = ⟨ty⟩ ∧ f.Name = ⟨nm⟩

/-- The emitted items appear in the text left to right, each inside a region
matching its pattern, in exactly the emitted order. -/
inductive MatchesInOrder (P : List Char → α → Prop) : List Char → List α → Prop where
  | nil (t : List Char) : MatchesInOrder P t []
  | cons (g m t : List Char) (x : α) (xs : List α) :
      P m x → MatchesInOrder P t xs → MatchesInOrder P (g ++ m ++ t) (x :: xs)

/-! Parsing infrastructure lemmas. -/

theorem dropLit_eq : ∀ (lit l t : List Char), dropLit lit l = some t → l = lit ++ t := by
  intro lit
  induction lit with
  | nil =>
    intro l t h
    simp only [dropLit, Option.some.injEq] at h
    simp [h]
  | cons c lit ih =>
    intro l t h
    cases l with
    | nil => exact absurd h (by simp [dropLit])
    | cons d l =>
      by_cases hcd : c = d
      · simp only [dropLit, if_pos hcd] at h
        subst hcd
        simp [ih l t h]
      · simp [dropLit, hcd] at h

theorem matchMessageAt_decomp (l : List Char) (n b : String) (rem : List Char)
    (h : matchMessageAt l = some (n, b, rem)) :
    ∃ mid, l = mid ++ rem ∧ mid ≠ [] ∧ BlockMatchText mid (n, b) := by
  simp only [matchMessageAt] at h
  split at h
  · exact absurd h (by simp)
  · rename_i t hd
    split at h
    · exact absurd h (by simp)
    · rename_i hw1
      split at h
      · exact absurd h (by simp)
      · rename_i hnm
        split at h
        · rename_i t4 ht3
          split at h
          · rename_i t5 hdw
            simp only [Option.some.injEq, Prod.mk.injEq] at h
            obtain ⟨hn, hb, hrem⟩ := h
            refine ⟨messageLit ++ t.takeWhile isSpaceChar ++
              (t.dropWhile isSpaceChar).takeWhile isWordChar ++
              (((t.dropWhile isSpaceChar).dropWhile isWordChar).takeWhile isSpaceChar) ++
              '{' :: (t4.takeWhile (fun c => !(c = '}')) ++ ['}']), ?_, by simp [messageLit], ?_⟩
            · have hl := dropLit_eq _ _ _ hd
              have h2 : (t.takeWhile isSpaceChar) ++ (t.dropWhile isSpaceChar) = t :=
                List.takeWhile_append_dropWhile _ _
              have h3 : ((t.dropWhile isSpaceChar).takeWhile isWordChar) ++
                  ((t.dropWhile isSpaceChar).dropWhile isWordChar) = t.dropWhile isSpaceChar :=
                List.takeWhile_append_dropWhile _ _
              have h4 : (((t.dropWhile isSpaceChar).dropWhile isWordChar).takeWhile isSpaceChar) ++
                  (((t.dropWhile isSpaceChar).dropWhile isWordChar).dropWhile isSpaceChar) =
                  ((t.dropWhile isSpaceChar).dropWhile isWordChar) :=
                List.takeWhile_append_dropWhile _ _
              have h5 : (t4.takeWhile (fun c => !(c = '}'))) ++
                  (t4.dropWhile (fun c => !(c = '}'))) = t4 :=
                List.takeWhile_append_dropWhile _ _
              subst hrem
              rw [hl, ← h2]
              rw [ht3] at h4
              conv_lhs => rw [← h3, ← h4]
              rw [hdw] at h5
              conv_lhs => rw [← h5]
              simp [List.append_assoc]
            · refine ⟨t.takeWhile isSpaceChar,
                (t.dropWhile isSpaceChar).takeWhile isWordChar,
                (((t.dropWhile isSpaceChar).dropWhile isWordChar).takeWhile isSpaceChar),
                t4.takeWhile (fun c => !(c = '}')), rfl, ?_, ?_, ?_, ?_, ?_, ?_, ?_, ?_⟩
              · simpa using hw1
              · intro c hc
                exact List.mem_takeWhile_imp hc
              · simpa using hnm
              · intro c hc
                exact List.mem_takeWhile_imp hc
              · intro c hc
                exact List.mem_takeWhile_imp hc
              · intro c hc
                have := List.mem_takeWhile_imp hc
                simpa using this
              · simp [← hn]
              · simp [← hb]
          · exact absurd h (by simp)
        · exact absurd h (by simp)

theorem matchFieldCore_decomp (l : List Char) (ty nm : String) (rem : List Char)
    (h : matchFieldCore l = some (ty, nm, rem)) :
    ∃ tyL sp1 nmL sp2 sp3 ds,
      l = (tyL ++ sp1 ++ nmL ++ sp2 ++ '=' :: (sp3 ++ ds)) ++ rem ∧
      tyL ≠ [] ∧ (∀ c ∈ tyL, isWordChar c = true) ∧
      sp1 ≠ [] ∧ (∀ c ∈ sp1, isSpaceChar c = true) ∧
      nmL ≠ [] ∧ (∀ c ∈ nmL, isWordChar c = true) ∧
      (∀ c ∈ sp2, isSpaceChar c = true) ∧ (∀ c ∈ sp3, isSpaceChar c = true) ∧
      ds ≠ [] ∧ (∀ c ∈ ds, isDigitChar c = true) ∧ ty = ⟨tyL⟩ ∧ nm = ⟨nmL⟩ := by
  simp only [matchFieldCore] at h
  split at h
  · exact absurd h (by simp)
  · rename_i hty
    split at h
    · exact absurd h (by simp)
    · rename_i hsp1
      split at h
      · exact absurd h (by simp)
      · rename_i hnm
        split at h
        · rename_i t5 hm
          split at h
          · exact absurd h (by simp)
          · rename_i hds
            simp only [Option.some.injEq, Prod.mk.injEq] at h
            obtain ⟨hty2, hnm2, hrem⟩ := h
            refine ⟨l.takeWhile isWordChar,
              (l.dropWhile isWordChar).takeWhile isSpaceChar,
              ((l.dropWhile isWordChar).dropWhile isSpaceChar).takeWhile isWordChar,
              (((l.dropWhile isWordChar).dropWhile isSpaceChar).dropWhile isWordChar).takeWhile isSpaceChar,
              t5.takeWhile isSpaceChar,
              (t5.dropWhile isSpaceChar).takeWhile isDigitChar,
              ?_, ?_, ?_, ?_, ?_, ?_, ?_, ?_, ?_, ?_, ?_, ?_, ?_⟩
            · have h1 : (l.takeWhile isWordChar) ++ (l.dropWhile isWordChar) = l :=
                List.takeWhile_append_dropWhile _ _
              have h2 : ((l.dropWhile isWordChar).takeWhile isSpaceChar) ++
                  ((l.dropWhile isWordChar).dropWhile isSpaceChar) = l.dropWhile isWordChar :=
                List.takeWhile_append_dropWhile _ _
              have h3 : (((l.dropWhile isWordChar).dropWhile isSpaceChar).takeWhile isWordChar) ++
                  (((l.dropWhile isWordChar).dropWhile isSpaceChar).dropWhile isWordChar) =
                  (l.dropWhile isWordChar).dropWhile isSpaceChar :=
                List.takeWhile_append_dropWhile _ _
              have h4 : ((((l.dropWhile isWordChar).dropWhile isSpaceChar).dropWhile isWordChar).takeWhile isSpaceChar) ++
                  ((((l.dropWhile isWordChar).dropWhile isSpaceChar).dropWhile isWordChar).dropWhile isSpaceChar) =
                  (((l.dropWhile isWordChar).dropWhile isSpaceChar).dropWhile isWordChar) :=
                List.takeWhile_append_dropWhile _ _
              have h5 : (t5.takeWhile isSpaceChar) ++ (t5.dropWhile isSpaceChar) = t5 :=
                List.takeWhile_append_dropWhile _ _
              have h6 : ((t5.dropWhile isSpaceChar).takeWhile isDigitChar) ++
                  ((t5.dropWhile isSpaceChar).dropWhile isDigitChar) = t5.dropWhile isSpaceChar :=
                List.takeWhile_append_dropWhile _ _
              subst hrem
              conv_lhs => rw [← h1, ← h2, ← h3]
              rw [hm] at h4
              conv_lhs => rw [← h4, ← h5, ← h6]
              simp [List.append_assoc]
            · simpa using hty
            · intro c hc
              exact List.mem_takeWhile_imp hc
            · simpa using hsp1
            · intro c hc
              exact List.mem_takeWhile_imp hc
            · simpa using hnm
            · intro c hc
              exact List.mem_takeWhile_imp hc
            · intro c hc
              exact List.mem_takeWhile_imp hc
            · intro c hc
              exact List.mem_takeWhile_imp hc
            · simpa using hds
            · intro c hc
              exact List.mem_takeWhile_imp hc
            · simp [← hty2]
            · simp [← hnm2]
        · exact absurd h (by simp)

theorem fieldMatch_core_branch (l : List Char) (f : ProtoField) (rem : List Char)
    (h : (matchFieldCore l).map
      (fun r => (({ Name := r.2.1, Typ := r.1, Repeated := false } : ProtoField), r.2.2)) =
      some (f, rem)) :
    ∃ mid, l = mid ++ rem ∧ mid ≠ [] ∧ FieldMatchText mid f := by
  cases hc : matchFieldCore l with
  | none => rw [hc] at h; simp at h
  | some r =>
    obtain ⟨ty, nm, rem2⟩ := r
    rw [hc] at h
    simp only [Option.map_some', Option.some.injEq, Prod.mk.injEq] at h
    obtain ⟨hf, hrem⟩ := h
    subst hrem
    obtain ⟨tyL, sp1, nmL, sp2, sp3, ds, heq, htyne, htyw, hsp1ne, hsp1s, hnmne, hnmw,
      hsp2s, hsp3s, hdsne, hdsd, htyv, hnmv⟩ := matchFieldCore_decomp l ty nm rem2 hc
    refine ⟨tyL ++ sp1 ++ nmL ++ sp2 ++ '=' :: (sp3 ++ ds), heq, by simp [htyne], ?_⟩
    refine ⟨[], tyL, sp1, nmL, sp2, sp3, ds, by simp, ?_, htyne, htyw, hsp1ne, hsp1s,
      hnmne, hnmw, hsp2s, hsp3s, hdsne, hdsd, ?_, ?_⟩
    · exact Or.inr ⟨by rw [← hf], rfl⟩
    · rw [← hf]
      exact htyv
    · rw [← hf]
      exact hnmv

theorem matchFieldAt_decomp (l : List Char) (f : ProtoField) (rem : List Char)
    (h : matchFieldAt l = some (f, rem)) :
    ∃ mid, l = mid ++ rem ∧ mid ≠ [] ∧ FieldMatchText mid f := by
  simp only [matchFieldAt] at h
  split at h
  · rename_i t hd
    split at h
    · exact fieldMatch_core_branch l f rem h
    · rename_i hws
      split at h
      · rename_i r hc
        obtain ⟨ty, nm, rem2⟩ := r
        simp only [Option.some.injEq, Prod.mk.injEq] at h
        obtain ⟨hf, hrem⟩ := h
        subst hrem
        have hl := dropLit_eq _ _ _ hd
        have hts : (t.takeWhile isSpaceChar) ++ (t.dropWhile isSpaceChar) = t :=
          List.takeWhile_append_dropWhile _ _
        obtain ⟨tyL, sp1, nmL, sp2, sp3, ds, heq, htyne, htyw, hsp1ne, hsp1s, hnmne, hnmw,
          hsp2s, hsp3s, hdsne, hdsd, htyv, hnmv⟩ :=
          matchFieldCore_decomp (t.dropWhile isSpaceChar) ty nm rem2 hc
        refine ⟨(repeatedLit ++ t.takeWhile isSpaceChar) ++ tyL ++ sp1 ++ nmL ++ sp2 ++
          '=' :: (sp3 ++ ds), ?_, by simp [repeatedLit], ?_⟩
        · rw [hl]
          conv_lhs => rw [← hts]
          conv_lhs => rw [heq]
          simp [List.append_assoc]
        · refine ⟨repeatedLit ++ t.takeWhile isSpaceChar, tyL, sp1, nmL, sp2, sp3, ds, rfl,
            ?_, htyne, htyw, hsp1ne, hsp1s, hnmne, hnmw, hsp2s, hsp3s, hdsne, hdsd, ?_, ?_⟩
          · refine Or.inl ⟨by rw [← hf], t.takeWhile isSpaceChar, rfl, by simpa using hws, ?_⟩
            intro c hc2
            exact List.mem_takeWhile_imp hc2
          · rw [← hf]
            exact htyv
          · rw [← hf]
            exact hnmv
      · exact fieldMatch_core_branch l f rem h
  · exact fieldMatch_core_branch l f rem h

theorem matchMessageAt_length (l : List Char) (n b : String) (rem : List Char)
    (h : matchMessageAt l = some (n, b, rem)) : rem.length < l.length := by
  obtain ⟨mid, hl, hne, -⟩ := matchMessageAt_decomp l n b rem h
  subst hl
  have hp : 0 < mid.length := List.length_pos.mpr hne
  rw [List.length_append]
  omega

theorem matchFieldAt_length (l : List Char) (f : ProtoField) (rem : List Char)
    (h : matchFieldAt l = some (f, rem)) : rem.length < l.length := by
  obtain ⟨mid, hl, hne, -⟩ := matchFieldAt_decomp l f rem h
  subst hl
  have hp : 0 < mid.length := List.length_pos.mpr hne
  rw [List.length_append]
  omega

theorem findAllMessagesAux_congr : ∀ (f1 f2 : Nat) (l : List Char),
    l.length ≤ f1 → l.length ≤ f2 → findAllMessagesAux f1 l = findAllMessagesAux f2 l := by
  intro f1
  induction f1 with
  | zero =>
    intro f2 l h1 h2
    have hl : l = [] := List.length_eq_zero.mp (Nat.le_zero.mp h1)
    subst hl
    cases f2 <;> rfl
  | succ f1 ih =>
    intro f2 l h1 h2
    cases l with
    | nil => cases f2 <;> rfl
    | cons c rest =>
      cases f2 with
      | zero => simp at h2
      | succ g =>
        have h1' : rest.length + 1 ≤ f1 + 1 := by simpa using h1
        have h2' : rest.length + 1 ≤ g + 1 := by simpa using h2
        cases hm : matchMessageAt (c :: rest) with
        | some res =>
          obtain ⟨n, b, rem⟩ := res
          have hlt : rem.length < rest.length + 1 := by
            simpa using matchMessageAt_length _ _ _ _ hm
          simp only [findAllMessagesAux, hm]
          rw [ih g rem (by omega) (by omega)]
        | none =>
          simp only [findAllMessagesAux, hm]
          exact ih g rest (by omega) (by omega)

theorem findAllFieldsAux_congr : ∀ (f1 f2 : Nat) (l : List Char),
    l.length ≤ f1 → l.length ≤ f2 → findAllFieldsAux f1 l = findAllFieldsAux f2 l := by
  intro f1
  induction f1 with
  | zero =>
    intro f2 l h1 h2
    have hl : l = [] := List.length_eq_zero.mp (Nat.le_zero.mp h1)
    subst hl
    cases f2 <;> rfl
  | succ f1 ih =>
    intro f2 l h1 h2
    cases l with
    | nil => cases f2 <;> rfl
    | cons c rest =>
      cases f2 with
      | zero => simp at h2
      | succ g =>
        have h1' : rest.length + 1 ≤ f1 + 1 := by simpa using h1
        have h2' : rest.length + 1 ≤ g + 1 := by simpa using h2
        cases hm : matchFieldAt (c :: rest) with
        | some res =>
          obtain ⟨f, rem⟩ := res
          have hlt : rem.length < rest.length + 1 := by
            simpa using matchFieldAt_length _ _ _ hm
          simp only [findAllFieldsAux, hm]
          rw [ih g rem (by omega) (by omega)]
        | none =>
          simp only [findAllFieldsAux, hm]
          exact ih g rest (by omega) (by omega)

theorem findAllMessages_cons (c : Char) (rest : List Char) :
    findAllMessages (c :: rest) =
      match matchMessageAt (c :: rest) with
      | some (n, b, rem) => (n, b) :: findAllMessages rem
      | none => findAllMessages rest := by
  show findAllMessagesAux (c :: rest).length (c :: rest) = _
  simp only [List.length_cons, findAllMessagesAux]
  cases hm : matchMessageAt (c :: rest) with
  | some res =>
    obtain ⟨n, b, rem⟩ := res
    have hlt : rem.length < rest.length + 1 := by
      simpa using matchMessageAt_length _ _ _ _ hm
    exact congrArg _ (findAllMessagesAux_congr _ _ _ (by omega) (le_refl _))
  | none => exact findAllMessagesAux_congr _ _ _ (by simp) (le_refl _)

theorem findAllFields_cons (c : Char) (rest : List Char) :
    findAllFields (c :: rest) =
      match matchFieldAt (c :: rest) with
      | some (f, rem) => f :: findAllFields rem
      | none => findAllFields rest := by
  show findAllFieldsAux (c :: rest).length (c :: rest) = _
  simp only [List.length_cons, findAllFieldsAux]
  cases hm : matchFieldAt (c :: rest) with
  | some res =>
    obtain ⟨f, rem⟩ := res
    have hlt : rem.length < rest.length + 1 := by
      simpa using matchFieldAt_length _ _ _ hm
    exact congrArg _ (findAllFieldsAux_congr _ _ _ (by omega) (le_refl _))
  | none => exact findAllFieldsAux_congr _ _ _ (by simp) (le_refl _)

theorem matchesInOrder_gap {α : Type} (P : List Char → α → Prop) (c : Char) (t : List Char)
    (ms : List α) (h : MatchesInOrder P t ms) : MatchesInOrder P (c :: t) ms := by
  cases h with
  | nil => exact .nil _
  | cons g m t2 x xs hm ht =>
    have he : c :: (g ++ m ++ t2) = (c :: g) ++ m ++ t2 := by simp
    rw [he]
    exact .cons _ _ _ _ _ hm ht

theorem findAllMessages_inOrder : ∀ (n : Nat) (l : List Char), l.length ≤ n →
    MatchesInOrder BlockMatchText l (findAllMessages l) := by
  intro n
  induction n with
  | zero =>
    intro l h
    have hl : l = [] := List.length_eq_zero.mp (Nat.le_zero.mp h)
    subst hl
    exact .nil _
  | succ n ih =>
    intro l h
    cases l with
    | nil => exact .nil _
    | cons c rest =>
      have h' : rest.length + 1 ≤ n + 1 := by simpa using h
      rw [findAllMessages_cons]
      cases hm : matchMessageAt (c :: rest) with
      | some res =>
        obtain ⟨nb, bb, rem⟩ := res
        obtain ⟨mid, hl, hne, hbm⟩ := matchMessageAt_decomp _ _ _ _ hm
        have hlt : rem.length < rest.length + 1 := by
          simpa using matchMessageAt_length _ _ _ _ hm
        rw [hl]
        have htail := ih rem (by omega)
        simpa using MatchesInOrder.cons [] mid rem (nb, bb) _ hbm htail
      | none =>
        exact matchesInOrder_gap _ c rest _ (ih rest (by omega))

theorem findAllFields_inOrder : ∀ (n : Nat) (l : List Char), l.length ≤ n →
    MatchesInOrder FieldMatchText l (findAllFields l) := by
  intro n
  induction n with
  | zero =>
    intro l h
    have hl : l = [] := List.length_eq_zero.mp (Nat.le_zero.mp h)
    subst hl
    exact .nil _
  | succ n ih =>
    intro l h
    cases l with
    | nil => exact .nil _
    | cons c rest =>
      have h' : rest.length + 1 ≤ n + 1 := by simpa using h
      rw [findAllFields_cons]
      cases hm : matchFieldAt (c :: rest) with
      | some res =>
        obtain ⟨f, rem⟩ := res
        obtain ⟨mid, hl, hne, hbm⟩ := matchFieldAt_decomp _ _ _ hm
        have hlt : rem.length < rest.length + 1 := by
          simpa using matchFieldAt_length _ _ _ hm
        rw [hl]
        have htail := ih rem (by omega)
        simpa using MatchesInOrder.cons [] mid rem f _ hbm htail
      | none =>
        exact matchesInOrder_gap _ c rest _ (ih rest (by omega))

theorem findAllMessages_blocksInOrder (l : List Char) :
    MatchesInOrder BlockMatchText l (findAllMessages l) :=
  findAllMessages_inOrder l.length l (le_refl _)

theorem findAllFields_fieldsInOrder (l : List Char) :
    MatchesInOrder FieldMatchText l (findAllFields l) :=
  findAllFields_inOrder l.length l (le_refl _)

/-! String and rendering helper lemmas. -/

theorem sJoin_cons (s : String) (l : List String) : sJoin (s :: l) = s ++ sJoin l := rfl

theorem string_append_empty (s : String) : s ++ "" = s := by
  apply String.ext
  simp [String.data_append]

theorem sJoin_data_of_mem {β : Type} (f : β → String) (m : β) :
    ∀ l : List β, m ∈ l → ∃ x y, (sJoin (l.map f)).data = x ++ (f m).data ++ y := by
  intro l
  induction l with
  | nil => intro h; exact absurd h (List.not_mem_nil m)
  | cons hd tl ih =>
    intro h
    rcases List.mem_cons.mp h with h1 | h2
    · subst h1
      exact ⟨[], (sJoin (tl.map f)).data, by simp [sJoin, String.data_append]⟩
    · obtain ⟨x, y, hxy⟩ := ih h2
      refine ⟨(f hd).data ++ x, y, ?_⟩
      simp only [List.map_cons, sJoin_cons, String.data_append, hxy]
      simp [List.append_assoc]

theorem renderAll_ok (w : World) (d : TemplateData)
    (hp : ∀ n2, w.parseErr n2 = none) (hc : ∀ n2, w.createErr n2 = none)
    (he : ∀ n2, w.execErr n2 = none) :
    ∀ o, renderAll w d o = .ok (o.map fun n2 => (n2, renderTemplate n2 d)) := by
  intro o
  induction o with
  | nil => rfl
  | cons hd tl ih => simp [renderAll, renderToFile, hp, hc, he, ih]

theorem GenerateApp_okWorld (input outputDir : String) (o : List String) :
    GenerateApp (okWorld input) outputDir o =
      .ok (staticsList ++
        (o.map fun n2 => (n2, renderTemplate n2 (buildData outputDir (parseText input))))) := by
  have h := renderAll_ok (okWorld input) (buildData outputDir (parseText input))
    (fun _ => rfl) (fun _ => rfl) (fun _ => rfl) o
  simp only [GenerateApp, ParseProto, okWorld] at h ⊢
  rw [h]
  simp [writeFile, staticsList]

theorem lookupIn_append (l1 l2 : List (String × String)) (name : String) :
    lookupIn (l1 ++ l2) name =
      match lookupIn l1 name with
      | some v => some v
      | none => lookupIn l2 name := by
  induction l1 with
  | nil => simp [lookupIn]
  | cons hd tl ih =>
    obtain ⟨k, v⟩ := hd
    by_cases h : k = name
    · simp [lookupIn, h]
    · simp [lookupIn, h, ih]

theorem lookupIn_map_self (o : List String) (f : String → String) (name : String) :
    lookupIn (o.map fun n2 => (n2, f n2)) name = if name ∈ o then some (f name) else none := by
  induction o with
  | nil => simp [lookupIn]
  | cons hd tl ih =>
    simp only [List.map_cons, lookupIn]
    by_cases h : hd = name
    · subst h
      simp
    · rw [if_neg h, ih]
      by_cases h2 : name ∈ tl
      · simp [h2]
      · simp [h2, h, Ne.symm h]

theorem append3_ne_empty (a t b : String) (h : a.data ≠ []) : a ++ t ++ b ≠ "" := by
  intro he
  have hd := congrArg String.data he
  rw [String.data_append, String.data_append] at hd
  have hnil : ("" : String).data = [] := rfl
  rw [hnil] at hd
  rcases List.append_eq_nil.mp hd with ⟨h1, -⟩
  rcases List.append_eq_nil.mp h1 with ⟨h2, -⟩
  exact h h2

/-- C1: the type mapper is total: every type string returns a non-empty
declaration; the scalar types map exactly per the table (int32 and int64 to an
integer field, string to a bounded character field, bool to a boolean field,
float and double to a floating-point field), and every other string returns a
ForeignKey declaration embedding that string verbatim with cascade-delete
semantics.  No input makes the mapper fail. -/
theorem c1_pythonType_total_and_exact :
    (∀ t : String, PythonType t ≠ "") ∧
    PythonType "int32" = "models.IntegerField()" ∧
    PythonType "int64" = "models.IntegerField()" ∧
    PythonType "string" = "models.CharField(max_length=255)" ∧
    PythonType "bool" = "models.BooleanField()" ∧
    PythonType "float" = "models.FloatField()" ∧
    PythonType "double" = "models.FloatField()" ∧
    (∀ t : String, t ≠ "int32" → t ≠ "int64" → t ≠ "string" → t ≠ "bool" → t ≠ "float" →
      t ≠ "double" →
      PythonType t = "models.ForeignKey(" ++ t ++ ", on_delete=models.CASCADE)") := by
  refine ⟨?_, rfl, rfl, rfl, rfl, rfl, rfl, ?_⟩
  · intro t
    unfold PythonType
    split_ifs <;> first
      | decide
      | exact append3_ne_empty _ t _ (by decide)
  · intro t h1 h2 h3 h4 h5 h6
    simp [PythonType, h1, h2, h3, h4, h5, h6]

theorem c1_pythonType_total_and_exact_witness :
    PythonType "Author" = "models.ForeignKey(" ++ "Author" ++ ", on_delete=models.CASCADE)" ∧
    PythonType "Author" ≠ "" :=
  ⟨c1_pythonType_total_and_exact.2.2.2.2.2.2.2 "Author" (by decide) (by decide) (by decide)
      (by decide) (by decide) (by decide),
    c1_pythonType_total_and_exact.1 "Author"⟩

/-- C2: the parser emits messages in the textual order their blocks appear in
the input, and within each message emits fields in the top-to-bottom textual
order of their declarations; the models template lists one field line per
field in that same order. -/
theorem c2_order_preserved :
    (∀ text : String, MatchesInOrder BlockMatchText text.data (findAllMessages text.data)) ∧
    (∀ body : List Char, MatchesInOrder FieldMatchText body (findAllFields body)) ∧
    (∀ text : String, parseText text =
      (findAllMessages text.data).map
        (fun p => { Name := p.1, Fields := findAllFields p.2.data })) ∧
    (∀ m : RenderedMessage, m.Fields ≠ [] →
      modelBlock m = "\nclass " ++ m.Name ++ "(models.Model):" ++
        sJoin (m.Fields.map modelFieldLine) ++ "\n") := by
  refine ⟨fun text => findAllMessages_blocksInOrder text.data,
    fun body => findAllFields_fieldsInOrder body, fun _ => rfl, ?_⟩
  intro m hm
  have hne : m.Fields.isEmpty = false := by
    cases hf : m.Fields with
    | nil => exact absurd hf hm
    | cons a l => rfl
  simp [modelBlock, hne]

theorem c2_order_preserved_witness :
    modelBlock
        { Name := "User",
          Fields := [{ Name := "name", Typ := "string", Repeated := false,
                       DjangoType := "models.CharField(max_length=255)" }] } =
      "\nclass " ++ "User" ++ "(models.Model):" ++
        sJoin ([({ Name := "name", Typ := "string", Repeated := false,
                   DjangoType := "models.CharField(max_length=255)" } : RenderedField)].map
            modelFieldLine) ++ "\n" :=
  c2_order_preserved.2.2.2 _ (by decide)

/-- C4: the parser returns an error exactly when the input read fails; for
every loadable text parsing succeeds, and unmatched text is excluded from the
result rather than causing a failure. -/
theorem c4_parse_error_iff_read_error :
    (∀ text : String, ParseProto (Except.ok text) = Except.ok (parseText text)) ∧
    (∀ e : String, ParseProto (Except.error e) =
      Except.error ("failed to read proto file: " ++ e)) ∧
    (∀ r : Except String String,
      (∃ e, ParseProto r = Except.error e) ↔ ∃ e, r = Except.error e) ∧
    parseText "message A { ??? }" = [{ Name := "A", Fields := [] }] ∧
    parseText "not a schema" = [] := by
  refine ⟨fun _ => rfl, fun _ => rfl, ?_, by decide, by decide⟩
  intro r
  cases r with
  | ok t =>
    constructor
    · rintro ⟨e, he⟩
      exact absurd he (by simp [ParseProto])
    · rintro ⟨e, he⟩
      exact absurd he (by simp)
  | error e =>
    exact ⟨fun _ => ⟨e, rfl⟩, fun _ => ⟨"failed to read proto file: " ++ e, rfl⟩⟩

theorem c4_parse_error_iff_read_error_witness :
    ParseProto (Except.error "boom") = Except.error ("failed to read proto file: " ++ "boom") :=
  c4_parse_error_iff_read_error.2.1 "boom"

/-- C5: the emitted declaration for a field depends only on its declared type,
never on its repetition flag; the flag is nonetheless carried through to the
mapped field. -/
theorem c5_repeated_never_changes_declaration :
    (∀ f : ProtoField, (toRenderedField f).DjangoType = PythonType f.Typ ∧
      (toRenderedField f).Repeated = f.Repeated ∧ (toRenderedField f).Name = f.Name) ∧
    (∀ nm ty : String, ∀ r1 r2 : Bool,
      modelFieldLine (toRenderedField { Name := nm, Typ := ty, Repeated := r1 }) =
        modelFieldLine (toRenderedField { Name := nm, Typ := ty, Repeated := r2 })) :=
  ⟨fun _ => ⟨rfl, rfl, rfl⟩, fun _ _ _ _ => rfl⟩

/-- C6: a message whose body matched no field lines renders a class body that
is the single no-op statement pass, never an empty body, and such a message
parses to an empty field sequence rather than an error. -/
theorem c6_empty_message_renders_pass :
    (∀ m : RenderedMessage, m.Fields = [] →
      modelBlock m = "\nclass " ++ m.Name ++ "(models.Model):\n    pass\n") ∧
    parseText "message Empty { }" = [{ Name := "Empty", Fields := [] }] := by
  refine ⟨?_, by decide⟩
  intro m hm
  apply String.ext
  have hl : ("(models.Model):\n    pass\n" : String).data =
      ("(models.Model):" : String).data ++ ("\n    pass" : String).data ++
        ("\n" : String).data := by decide
  simp [modelBlock, hm, String.data_append, hl, List.append_assoc]

theorem c6_empty_message_renders_pass_witness :
    modelBlock { Name := "Empty", Fields := [] } =
      "\nclass " ++ "Empty" ++ "(models.Model):\n    pass\n" :=
  c6_empty_message_renders_pass.1 _ (by decide)

/-- C8: the rendering context carries as application identifier the final path
segment of the output directory and as title its title-cased form, and no
validation is performed: generation succeeds for every output directory
string. -/
theorem c8_app_name_from_final_segment :
    (∀ (outputDir : String) (msgs : List ProtoMessage),
      (buildData outputDir msgs).AppName = filepathBase outputDir ∧
      (buildData outputDir msgs).AppTitle = titleCaser (filepathBase outputDir)) ∧
    filepathBase "/srv/apps/accounts" = "accounts" ∧
    filepathBase "apps/blog/" = "blog" ∧
    titleCaser "accounts" = "Accounts" ∧
    (∀ input outputDir : String, ∃ files,
      GenerateApp (okWorld input) outputDir canonicalOrder = Except.ok files) := by
  refine ⟨fun _ _ => ⟨rfl, rfl⟩, by decide, by decide, by decide, ?_⟩
  intro input outputDir
  exact ⟨_, GenerateApp_okWorld input outputDir canonicalOrder⟩

theorem occursIn_wrap {β : Type} (f : β → String) (l : List β) (m : β) (hm : m ∈ l)
    (p : String) (u v : List Char) (hf : (f m).data = u ++ p.data ++ v)
    (A B : String) : occursIn p (A ++ sJoin (l.map f) ++ B) := by
  obtain ⟨x, y, hxy⟩ := sJoin_data_of_mem f m l hm
  refine ⟨A.data ++ x ++ u, v ++ y ++ B.data, ?_⟩
  simp [String.data_append, hxy, hf, List.append_assoc]

/-- C7: every message in the rendering context yields a serializer class named
after it, a CRUD view-class bound to that serializer, a router registration
whose URL path segment is the lowercased message name, and an admin
registration call. -/
theorem c7_per_message_artifacts (d : TemplateData) :
    ∀ m ∈ d.Messages,
      occursIn ("class " ++ m.Name ++ "Serializer(serializers.ModelSerializer):")
        (renderSerializers d) ∧
      occursIn ("class " ++ m.Name ++ "ViewSet(viewsets.ModelViewSet):\n    queryset = " ++
        m.Name ++ ".objects.all()\n    serializer_class = " ++ m.Name ++ "Serializer")
        (renderViewsets d) ∧
      occursIn ("router.register(r'" ++ goToLower m.Name ++ "', " ++ m.Name ++ "ViewSet)")
        (renderUrls d) ∧
      occursIn ("admin.site.register(" ++ m.Name ++ ")") (renderAdmin d) := by
  intro m hm
  refine ⟨?_, ?_, ?_, ?_⟩
  · have hf : (serializerClass m).data = ['\n'] ++
        ("class " ++ m.Name ++ "Serializer(serializers.ModelSerializer):").data ++
        (("\n    class Meta:\n        model = " : String).data ++ m.Name.data ++
          ("\n        fields = '__all__'\n" : String).data) := by
      have hs1 : ("\nclass " : String).data = '\n' :: ("class " : String).data := by decide
      have hs2 : ("Serializer(serializers.ModelSerializer):\n    class Meta:\n        model = " :
          String).data = ("Serializer(serializers.ModelSerializer):" : String).data ++
          ("\n    class Meta:\n        model = " : String).data := by decide
      simp [serializerClass, String.data_append, hs1, hs2, List.append_assoc]
    exact occursIn_wrap serializerClass d.Messages m hm _ _ _ hf
      ("from rest_framework import serializers\n" ++ sJoin (d.Messages.map serializerImport) ++
        "\n\n") "\n"
  · have hf : (viewsetClass m).data = ['\n'] ++
        ("class " ++ m.Name ++ "ViewSet(viewsets.ModelViewSet):\n    queryset = " ++ m.Name ++
          ".objects.all()\n    serializer_class = " ++ m.Name ++ "Serializer").data ++
        ("\n" : String).data := by
      have hs1 : ("\nclass " : String).data = '\n' :: ("class " : String).data := by decide
      have hs2 : ("Serializer\n" : String).data =
          ("Serializer" : String).data ++ ("\n" : String).data := by decide
      simp [viewsetClass, String.data_append, hs1, hs2, List.append_assoc]
    exact occursIn_wrap viewsetClass d.Messages m hm _ _ _ hf
      ("from rest_framework import viewsets\n" ++ sJoin (d.Messages.map viewsetImport) ++
        "\n\n") "\n"
  · have hf : (urlRegister m).data = ['\n'] ++
        ("router.register(r'" ++ goToLower m.Name ++ "', " ++ m.Name ++ "ViewSet)").data ++
        ("\n" : String).data := by
      have hs1 : ("\nrouter.register(r'" : String).data =
          '\n' :: ("router.register(r'" : String).data := by decide
      have hs2 : ("ViewSet)\n" : String).data =
          ("ViewSet)" : String).data ++ ("\n" : String).data := by decide
      simp [urlRegister, String.data_append, hs1, hs2, List.append_assoc]
    exact occursIn_wrap urlRegister d.Messages m hm _ _ _ hf
      ("from django.urls import path, include\nfrom rest_framework.routers import DefaultRouter\n" ++
        sJoin (d.Messages.map urlImport) ++ "\n\nrouter = DefaultRouter()\n")
      "\n\nurlpatterns = [\n    path('', include(router.urls)),\n]\n"
  · have hf : (adminRegister m).data = ['\n'] ++
        ("admin.site.register(" ++ m.Name ++ ")").data ++ ("\n" : String).data := by
      have hs1 : ("\nadmin.site.register(" : String).data =
          '\n' :: ("admin.site.register(" : String).data := by decide
      have hs2 : (")\n" : String).data = (")" : String).data ++ ("\n" : String).data := by decide
      simp [adminRegister, String.data_append, hs1, hs2, List.append_assoc]
    exact occursIn_wrap adminRegister d.Messages m hm _ _ _ hf
      ("from django.contrib import admin\n" ++ sJoin (d.Messages.map adminImport) ++ "\n\n") "\n"

theorem c7_per_message_artifacts_witness :
    occursIn ("class " ++ "User" ++ "Serializer(serializers.ModelSerializer):")
      (renderSerializers { AppName := "app", AppTitle := "App",
                           Messages := [{ Name := "User", Fields := [] }] }) ∧
    occursIn ("admin.site.register(" ++ "User" ++ ")")
      (renderAdmin { AppName := "app", AppTitle := "App",
                     Messages := [{ Name := "User", Fields := [] }] }) := by
  have h := c7_per_message_artifacts
    { AppName := "app", AppTitle := "App", Messages := [{ Name := "User", Fields := [] }] }
    { Name := "User", Fields := [] } (by decide)
  exact ⟨h.1, h.2.2.2⟩

/-- C9: determinism: two runs on identical input text and output directory
produce identical content for every output file, whichever iteration order the
files map yields in each run. -/
theorem c9_deterministic_outputs (input outputDir : String) (o1 o2 : List String)
    (h1 : o1.Perm canonicalOrder) (h2 : o2.Perm canonicalOrder) :
    ∀ name, lookupOut (GenerateApp (okWorld input) outputDir o1) name =
      lookupOut (GenerateApp (okWorld input) outputDir o2) name := by
  intro name
  rw [GenerateApp_okWorld, GenerateApp_okWorld]
  simp only [lookupOut]
  rw [lookupIn_append, lookupIn_append, lookupIn_map_self, lookupIn_map_self]
  have hmem : (name ∈ o1) ↔ (name ∈ o2) := h1.mem_iff.trans h2.mem_iff.symm
  by_cases hm : name ∈ o1
  · rw [if_pos hm, if_pos (hmem.mp hm)]
  · rw [if_neg hm, if_neg (fun h => hm (hmem.mpr h))]

theorem c9_deterministic_outputs_witness :
    lookupOut (GenerateApp (okWorld "message A { int32 x = 1 }") "blog" canonicalOrder)
        "models.py" =
      lookupOut (GenerateApp (okWorld "message A { int32 x = 1 }") "blog"
        ["serializers.py", "models.py", "viewsets.py", "urls.py", "admin.py", "apps.py"])
        "models.py" :=
  c9_deterministic_outputs "message A { int32 x = 1 }" "blog" canonicalOrder
    ["serializers.py", "models.py", "viewsets.py", "urls.py", "admin.py", "apps.py"]
    (List.Perm.refl _) (List.Perm.swap "models.py" "serializers.py" _) "models.py"

/-- C10: when no message block matches (including the empty input), generation
still succeeds and produces all nine files: three static files with fixed
contents and six rendered files holding only their fixed headers and
boilerplate. -/
theorem c10_no_match_still_generates (text outputDir : String)
    (h : parseText text = []) :
    GenerateApp (okWorld text) outputDir canonicalOrder = Except.ok
      [("migrations/__init__.py", ""), ("__init__.py", ""), ("tests.py", "# placeholder\n"),
       ("models.py", "from django.db import models\n"),
       ("serializers.py", "from rest_framework import serializers\n\n\n\n"),
       ("viewsets.py", "from rest_framework import viewsets\n\n\n\n"),
       ("urls.py", "from django.urls import path, include\nfrom rest_framework.routers import DefaultRouter\n\n\nrouter = DefaultRouter()\n\n\nurlpatterns = [\n    path('', include(router.urls)),\n]\n"),
       ("admin.py", "from django.contrib import admin\n\n\n\n"),
       ("apps.py", "from django.apps import AppConfig\n\nclass " ++
         titleCaser (filepathBase outputDir) ++
         "Config(AppConfig):\n    default_auto_field = 'django.db.models.BigAutoField'\n    name = '" ++
         filepathBase outputDir ++ "'\n")] := by
  rw [GenerateApp_okWorld, h]
  rfl

theorem c10_no_match_still_generates_witness :
    GenerateApp (okWorld "") "generated_app" canonicalOrder = Except.ok
      [("migrations/__init__.py", ""), ("__init__.py", ""), ("tests.py", "# placeholder\n"),
       ("models.py", "from django.db import models\n"),
       ("serializers.py", "from rest_framework import serializers\n\n\n\n"),
       ("viewsets.py", "from rest_framework import viewsets\n\n\n\n"),
       ("urls.py", "from django.urls import path, include\nfrom rest_framework.routers import DefaultRouter\n\n\nrouter = DefaultRouter()\n\n\nurlpatterns = [\n    path('', include(router.urls)),\n]\n"),
       ("admin.py", "from django.contrib import admin\n\n\n\n"),
       ("apps.py", "from django.apps import AppConfig\n\nclass " ++
         titleCaser (filepathBase "generated_app") ++
         "Config(AppConfig):\n    default_auto_field = 'django.db.models.BigAutoField'\n    name = '" ++
         filepathBase "generated_app" ++ "'\n")] :=
  c10_no_match_still_generates "" "generated_app" (by decide)

theorem renderAll_error_parse (w : World) (d : TemplateData) (o2 : List String)
    (name e : String) (hp : w.parseErr name = some e) :
    ∀ o1 : List String,
      (∀ n2 ∈ o1, w.parseErr n2 = none ∧ w.createErr n2 = none ∧ w.execErr n2 = none) →
      renderAll w d (o1 ++ name :: o2) =
        .error ("failed to render " ++ name ++ ": " ++ ("failed to parse template: " ++ e)) := by
  intro o1
  induction o1 with
  | nil =>
    intro _
    simp [renderAll, renderToFile, hp]
  | cons hd tl ih =>
    intro hok
    have hhd := hok hd (by simp)
    have htl := ih (fun n2 hn2 => hok n2 (by simp [hn2]))
    simp [renderAll, renderToFile, hhd.1, hhd.2.1, hhd.2.2, htl]

theorem renderAll_error_create (w : World) (d : TemplateData) (o2 : List String)
    (name e : String) (hp : w.parseErr name = none) (hc : w.createErr name = some e) :
    ∀ o1 : List String,
      (∀ n2 ∈ o1, w.parseErr n2 = none ∧ w.createErr n2 = none ∧ w.execErr n2 = none) →
      renderAll w d (o1 ++ name :: o2) =
        .error ("failed to render " ++ name ++ ": " ++ ("failed to create file: " ++ e)) := by
  intro o1
  induction o1 with
  | nil =>
    intro _
    simp [renderAll, renderToFile, hp, hc]
  | cons hd tl ih =>
    intro hok
    have hhd := hok hd (by simp)
    have htl := ih (fun n2 hn2 => hok n2 (by simp [hn2]))
    simp [renderAll, renderToFile, hhd.1, hhd.2.1, hhd.2.2, htl]

theorem renderAll_error_exec (w : World) (d : TemplateData) (o2 : List String)
    (name e : String) (hp : w.parseErr name = none) (hc : w.createErr name = none)
    (he : w.execErr name = some e) :
    ∀ o1 : List String,
      (∀ n2 ∈ o1, w.parseErr n2 = none ∧ w.createErr n2 = none ∧ w.execErr n2 = none) →
      renderAll w d (o1 ++ name :: o2) =
        .error ("failed to render " ++ name ++ ": " ++ e) := by
  intro o1
  induction o1 with
  | nil =>
    intro _
    simp [renderAll, renderToFile, hp, hc, he]
  | cons hd tl ih =>
    intro hok
    have hhd := hok hd (by simp)
    have htl := ih (fun n2 hn2 => hok n2 (by simp [hn2]))
    simp [renderAll, renderToFile, hhd.1, hhd.2.1, hhd.2.2, htl]

/-- C3 counterexample: a run in which the write of the static test stub raises
an error (disk full) still returns success, with the remaining eight files
written: the error raised by that stage is silently discarded, so it is not
propagated to the top level. -/
theorem c3_counterexample_write_error_discarded :
    badWorld.writeErr "tests.py" = some "disk full" ∧
    GenerateApp badWorld "generated_app" canonicalOrder = Except.ok
      [("migrations/__init__.py", ""), ("__init__.py", ""),
       ("models.py", "from django.db import models\n"),
       ("serializers.py", "from rest_framework import serializers\n\n\n\n"),
       ("viewsets.py", "from rest_framework import viewsets\n\n\n\n"),
       ("urls.py", "from django.urls import path, include\nfrom rest_framework.routers import DefaultRouter\n\n\nrouter = DefaultRouter()\n\n\nurlpatterns = [\n    path('', include(router.urls)),\n]\n"),
       ("admin.py", "from django.contrib import admin\n\n\n\n"),
       ("apps.py", "from django.apps import AppConfig\n\nclass " ++
         titleCaser (filepathBase "generated_app") ++
         "Config(AppConfig):\n    default_auto_field = 'django.db.models.BigAutoField'\n    name = '" ++
         filepathBase "generated_app" ++ "'\n")] :=
  ⟨rfl, rfl⟩

/-- C3 amended: every failure of one of the five checked stages (input read,
directory creation, template parse, output-file creation, render execution) is
neither retried nor recovered, is wrapped with a stage-identifying message and
propagated to the top level; errors raised while writing the three static
placeholder files, however, are silently discarded and generation still
succeeds. -/
theorem c3_amended_stage_errors_wrapped :
    (∀ (w : World) (dir : String) (o : List String) (e : String),
      w.readResult = Except.error e →
      GenerateApp w dir o = Except.error ("failed to read proto file: " ++ e)) ∧
    (∀ (w : World) (dir : String) (o : List String) (input e : String),
      w.readResult = Except.ok input → w.mkdirErr = some e →
      GenerateApp w dir o = Except.error ("failed to create migrations directory: " ++ e)) ∧
    (∀ (w : World) (dir input : String) (o1 o2 : List String) (name e : String),
      w.readResult = Except.ok input → w.mkdirErr = none →
      (∀ n2 ∈ o1, w.parseErr n2 = none ∧ w.createErr n2 = none ∧ w.execErr n2 = none) →
      w.parseErr name = some e →
      GenerateApp w dir (o1 ++ name :: o2) =
        Except.error ("failed to render " ++ name ++ ": " ++
          ("failed to parse template: " ++ e))) ∧
    (∀ (w : World) (dir input : String) (o1 o2 : List String) (name e : String),
      w.readResult = Except.ok input → w.mkdirErr = none →
      (∀ n2 ∈ o1, w.parseErr n2 = none ∧ w.createErr n2 = none ∧ w.execErr n2 = none) →
      w.parseErr name = none → w.createErr name = some e →
      GenerateApp w dir (o1 ++ name :: o2) =
        Except.error ("failed to render " ++ name ++ ": " ++
          ("failed to create file: " ++ e))) ∧
    (∀ (w : World) (dir input : String) (o1 o2 : List String) (name e : String),
      w.readResult = Except.ok input → w.mkdirErr = none →
      (∀ n2 ∈ o1, w.parseErr n2 = none ∧ w.createErr n2 = none ∧ w.execErr n2 = none) →
      w.parseErr name = none → w.createErr name = none → w.execErr name = some e →
      GenerateApp w dir (o1 ++ name :: o2) =
        Except.error ("failed to render " ++ name ++ ": " ++ e)) ∧
    (∀ (input dir : String) (wf : String → Option String) (o : List String),
      ∃ files,
        GenerateApp { readResult := Except.ok input, mkdirErr := none, writeErr := wf,
                      parseErr := fun _ => none, createErr := fun _ => none,
                      execErr := fun _ => none } dir o = Except.ok files) := by
  refine ⟨?_, ?_, ?_, ?_, ?_, ?_⟩
  · intro w dir o e hre
    simp [GenerateApp, ParseProto, hre]
  · intro w dir o input e hre hmk
    simp [GenerateApp, ParseProto, hre, hmk]
  · intro w dir input o1 o2 name e hre hmk hok hp
    have h := renderAll_error_parse w (buildData dir (parseText input)) o2 name e hp o1 hok
    simp [GenerateApp, ParseProto, hre, hmk, h]
  · intro w dir input o1 o2 name e hre hmk hok hp hc
    have h := renderAll_error_create w (buildData dir (parseText input)) o2 name e hp hc o1 hok
    simp [GenerateApp, ParseProto, hre, hmk, h]
  · intro w dir input o1 o2 name e hre hmk hok hp hc he
    have h := renderAll_error_exec w (buildData dir (parseText input)) o2 name e hp hc he o1 hok
    simp [GenerateApp, ParseProto, hre, hmk, h]
  · intro input dir wf o
    have h := renderAll_ok
      { readResult := Except.ok input, mkdirErr := none, writeErr := wf,
        parseErr := fun _ => none, createErr := fun _ => none, execErr := fun _ => none }
      (buildData dir (parseText input)) (fun _ => rfl) (fun _ => rfl) (fun _ => rfl) o
    refine ⟨(staticsList.filterMap fun p =>
        writeFile { readResult := Except.ok input, mkdirErr := none, writeErr := wf,
                    parseErr := fun _ => none, createErr := fun _ => none,
                    execErr := fun _ => none } p.1 p.2) ++
      (o.map fun n2 => (n2, renderTemplate n2 (buildData dir (parseText input)))), ?_⟩
    simp only [GenerateApp, ParseProto]
    rw [h]

theorem c3_amended_stage_errors_wrapped_witness :
    GenerateApp { readResult := Except.error "no such file", mkdirErr := none,
                  writeErr := fun _ => none, parseErr := fun _ => none,
                  createErr := fun _ => none, execErr := fun _ => none }
        "generated_app" canonicalOrder =
      Except.error ("failed to read proto file: " ++ "no such file") :=
  c3_amended_stage_errors_wrapped.1 _ "generated_app" canonicalOrder "no such file" rfl
